import Mathlib

/-!
Verification of the document-retrieval core of the `support-mcp` server
(`src/tools/docs_rag.py`): document scanning (`_iter_doc_files`), paragraph
scoring (`_simple_score`), per-file search (`_search_in_file`), aggregate
search (`_search_docs_internal`), and the structured halves of the
presenter tools (`list_docs`, `answer_from_docs`).

Strings are modelled as `List Char`.  Lowercasing, the `\w` word-character
class and the `\s` whitespace class are modelled on their ASCII behaviour
(`Char.toLower`, `Char.isAlphanum`), which is what all the properties below
depend on.  The filesystem is modelled explicitly: a `DocsFS` carries the
resolved root path, whether the root exists and is a directory, and the
entries that `rglob("*")` yields in scan order; a file entry's `content` is
`none` when reading it raises `OSError` (best-effort decoding means a
successful read always yields a string).  Python's stable `list.sort` with
`key=score, reverse=True` is modelled by a stable descending insertion
sort: sortedness plus stability plus being a permutation determine the
output list uniquely, so the model is observationally exact.
-/

namespace DocsRag

/-- Python's `str.lower`, restricted to ASCII case mapping. -/
def py_lower (s : List Char) : List Char := s.map Char.toLower

/-- The regex class `\w` (ASCII): letters, digits and underscore. -/
def is_word_char (c : Char) : Bool := c.isAlphanum || c = '_'

/-- The regex class `\s` / `str.strip` whitespace (ASCII):
space, tab, newline, carriage return, vertical tab, form feed. -/
def is_py_space (c : Char) : Bool :=
  c = ' ' || c = '\t' || c = '\n' || c = '\r' || c = '\x0b' || c = '\x0c'

/-- Accumulator pass for `re.findall(r"\w+", s)`: `acc` is the current
word-character run, reversed. -/
def find_word_tokens_aux : List Char → List Char → List (List Char)
  | acc, [] => if acc.isEmpty then [] else [acc.reverse]
  | acc, c :: rest =>
    if is_word_char c then find_word_tokens_aux (c :: acc) rest
    else if acc.isEmpty then find_word_tokens_aux [] rest
    else acc.reverse :: find_word_tokens_aux [] rest

/-- Model of `re.findall(r"\w+", s)`: the maximal runs of word characters, in order. -/
def find_word_tokens (s : List Char) : List (List Char) :=
  find_word_tokens_aux [] s

/-- Scan for `hay.count(needle)` with a nonempty needle: at `skip = 0` try to
match `needle` at the current position; on a match, count it and skip the
remaining `needle.length - 1` characters (non-overlapping occurrences). -/
def count_occs_aux (needle : List Char) : List Char → Nat → Nat
  | [], _ => 0
  | _ :: rest, Nat.succ k => count_occs_aux needle rest k
  | c :: rest, 0 =>
    if needle.isPrefixOf (c :: rest) then
      1 + count_occs_aux needle rest (needle.length - 1)
    else
      count_occs_aux needle rest 0

/-- Python `hay.count(needle)`: number of non-overlapping occurrences of
`needle` in `hay`, scanning left to right (an empty needle matches at every
position, giving `hay.length + 1`). -/
def count_occs (hay needle : List Char) : Nat :=
  if needle.isEmpty then hay.length + 1 else count_occs_aux needle hay 0

/-- Model of `_simple_score(text, query)`: lowercase the text, tokenize the lowered
query with `re.findall(r"\w+", ...)`, and sum `text_lower.count(tok)` over
the (nonempty) tokens.  The token list is a list, not a set: a token that
occurs twice in the query is counted twice. -/
def simple_score (text query : List Char) : Nat :=
  let text_lower := py_lower text
  let tokens := find_word_tokens (py_lower query)
  ((tokens.filter (fun t => !t.isEmpty)).map (fun tok => count_occs text_lower tok)).sum

/-- Length of the separator match of `re.split(r"\n\s*\n", ...)` at the head
of `s`, if any.  The regex engine matches `\n`, then greedily `\s*`, then
backtracks to find a final `\n`: the match is the leading `\n` plus the
whitespace run up to and including its last newline. -/
def sep_len (s : List Char) : Option Nat :=
  match s with
  | [] => none
  | c :: t =>
    if c = '\n' then
      let w := t.takeWhile is_py_space
      match (w.reverse.findIdx? (fun d => d = '\n')) with
      | some j => some (1 + (w.length - j))
      | none => none
    else none

/-- Splitting pass: `acc` is the current paragraph reversed, `skip` is the
number of already-matched separator characters still to consume. -/
def split_aux : List Char → Nat → List Char → List (List Char)
  | acc, _, [] => [acc.reverse]
  | acc, Nat.succ k, _ :: rest => split_aux acc k rest
  | acc, 0, c :: rest =>
    match sep_len (c :: rest) with
    | some n => acc.reverse :: split_aux [] (n - 1) rest
    | none => split_aux (c :: acc) 0 rest

/-- Model of `re.split(r"\n\s*\n", content)`: the paragraphs of a document, split on
blank-line separators, in document order. -/
def split_paragraphs (s : List Char) : List (List Char) :=
  split_aux [] 0 s

/-- Python `str.strip()`: drop leading and trailing whitespace. -/
def py_strip (s : List Char) : List Char :=
  ((s.dropWhile is_py_space).reverse.dropWhile is_py_space).reverse

/-- The snippet dictionary `{"file": ..., "score": ..., "snippet": ...}`
(the score is a sum of counts, hence a natural number). -/
structure Snippet where
  file : List Char
  score : Nat
  snippet : List Char
deriving Repr, DecidableEq

/-- The truncation `f"{para_stripped[:600]}..."` when the stripped paragraph exceeds 600
characters, the paragraph unchanged otherwise. -/
def truncate_snippet (s : List Char) : List Char :=
  if s.length > 600 then s.take 600 ++ "...".toList else s

/-- The paragraph loop of `_search_in_file`: split into paragraphs, strip,
drop empties, score, drop score `≤ 0`, truncate, tag with the file path —
in paragraph order. -/
def paragraph_snippets (file content query : List Char) : List Snippet :=
  (split_paragraphs content).filterMap (fun para =>
    let ps := py_strip para
    if ps.isEmpty then none
    else
      let score := simple_score ps query
      if score ≤ 0 then none
      else some { file := file, score := score, snippet := truncate_snippet ps })

/-- Stable descending insert: `x` passes exactly the elements with a
strictly larger score, so it lands before every equal-scored element that
was produced after it. -/
def insert_desc (x : Snippet) : List Snippet → List Snippet
  | [] => [x]
  | y :: ys => if x.score < y.score then y :: insert_desc x ys else x :: y :: ys

/-- Python's stable `snippets.sort(key=lambda x: x["score"], reverse=True)`:
a stable sort by score descending (inserting earlier-produced elements last,
each before the equal-scored elements already placed). -/
def sort_by_score_desc : List Snippet → List Snippet
  | [] => []
  | x :: xs => insert_desc x (sort_by_score_desc xs)

/-- Model of `_search_in_file(path, query, max_snippets)`.  `read` is the outcome of
`path.read_text(..., errors="ignore")`: `none` when it raises `OSError`. -/
def search_in_file (path : List Char) (read : Option (List Char))
    (query : List Char) (max_snippets : Nat) : List Snippet :=
  match read with
  | none => []
  | some content =>
    (sort_by_score_desc (paragraph_snippets path content query)).take max_snippets

/-- One entry yielded by `base.rglob("*")`, identified by its path relative
to the root.  `content` is the result of reading it (`none` = `OSError`). -/
structure FileEntry where
  rel_path : List Char
  is_file : Bool
  content : Option (List Char)
deriving Repr, DecidableEq

/-- The documentation tree: the resolved root path, whether
`base.exists() and base.is_dir()`, and the `rglob` entries in scan order. -/
structure DocsFS where
  root : List Char
  root_is_dir : Bool
  entries : List FileEntry
deriving Repr, DecidableEq

/-- The full path `str(p)` for an entry `p` under the root: the root joined with the
relative path. -/
def abs_path (root : List Char) (e : FileEntry) : List Char :=
  root ++ '/' :: e.rel_path

/-- The final path component (after the last `/`). -/
def final_name (p : List Char) : List Char :=
  (p.reverse.takeWhile (fun c => c ≠ '/')).reverse

/-- Model of `pathlib.PurePath.suffix`: the extension of the final component, from
its last dot, empty when the dot is absent, leading or trailing. -/
def py_suffix (p : List Char) : List Char :=
  let name := final_name p
  let rtail := name.reverse.takeWhile (fun c => c ≠ '.')
  if 0 < rtail.length ∧ rtail.length < name.length - 1 then
    '.' :: rtail.reverse
  else []

/-- The extension allow-list `{".md", ".rst", ".txt"}`. -/
def doc_exts : List (List Char) := [".md".toList, ".rst".toList, ".txt".toList]

/-- Model of `_iter_doc_files()`: empty when the root is missing or not a directory,
otherwise the regular files under it whose lowercased suffix is allowed. -/
def iter_doc_files (fs : DocsFS) : List FileEntry :=
  if fs.root_is_dir then
    fs.entries.filter (fun e =>
      e.is_file && doc_exts.contains (py_lower (py_suffix e.rel_path)))
  else []

/-- The concatenation step of `_search_docs_internal`: every discovered
file's snippets (per-file cap 3), in scan order. -/
def all_doc_snippets (fs : DocsFS) (query : List Char) : List Snippet :=
  (iter_doc_files fs).flatMap (fun e =>
    search_in_file (abs_path fs.root e) e.content query 3)

/-- Model of `_search_docs_internal(query, max_results)`: gather all per-file
snippets, re-sort globally by score descending (stable), cap at
`max_results`. -/
def search_docs_internal (fs : DocsFS) (query : List Char) (max_results : Nat) :
    List Snippet :=
  (sort_by_score_desc (all_doc_snippets fs query)).take max_results

/-- Model of `"\n".join(lines)`. -/
def join_lines (ls : List (List Char)) : List Char :=
  (ls.intersperse "\n".toList).flatten

/-- The scoring function the spec describes: identical to `simple_score`
except that the query is "tokenized into a set" — duplicate tokens are
collapsed before summing.  Stated from the spec's words, for comparison
with `simple_score`, which is translated from the code. -/
def simple_score_spec_dedup (text query : List Char) : Nat :=
  let text_lower := py_lower text
  let tokens := (find_word_tokens (py_lower query)).dedup
  ((tokens.filter (fun t => !t.isEmpty)).map (fun tok => count_occs text_lower tok)).sum

/-- The structured half of the `list_docs` result:
`{"docs_dir": str(docs_dir), "files": [str(p) for p in files]}`. -/
structure ListDocsStructured where
  docs_dir : List Char
  files : List (List Char)
deriving Repr, DecidableEq

/-- The `rels` list of `list_docs`: `str(p.relative_to(docs_dir))` for each
discovered file (for an `rglob` entry under the root this is exactly its
root-relative path). -/
def list_docs_rels (fs : DocsFS) : List (List Char) :=
  (iter_doc_files fs).map (fun e => e.rel_path)

/-- The `lines` list built by `list_docs` in its non-empty branch: a header
followed by one `"- {rel}"` line per discovered file. -/
def list_docs_lines (fs : DocsFS) : List (List Char) :=
  "Найдены файлы документации:".toList ::
    (list_docs_rels fs).map (fun r => "- ".toList ++ r)

/-- The human-readable `text` of `list_docs`: a "not found" message when no
files were discovered, otherwise the joined `lines`. -/
def list_docs_text (fs : DocsFS) : List Char :=
  if (iter_doc_files fs).isEmpty then
    "Каталог документации не найден или пуст: ".toList ++ fs.root ++
      "\nСоздайте папку docs/ и добавьте туда .md / .rst / .txt файлы.".toList
  else join_lines (list_docs_lines fs)

/-- The structured half of `list_docs`: the resolved root and the *full*
path strings `str(p)` of the discovered files. -/
def list_docs_structured (fs : DocsFS) : ListDocsStructured :=
  { docs_dir := fs.root
    files := (iter_doc_files fs).map (fun e => abs_path fs.root e) }

/-- The structured half of the `answer_from_docs` result:
`{"answer": ..., "used_snippets": ..., "query": ...}`. -/
structure AnswerFromDocsStructured where
  answer : Option (List Char)
  used_snippets : List Snippet
  query : List Char
deriving Repr, DecidableEq

/-- The human-readable context text assembled by `answer_from_docs` when
snippets were found (the `repr` quoting of the query is elided). -/
def render_answer (query : List Char) (snippets : List Snippet) : List Char :=
  join_lines (
    "Ниже приведены фрагменты документации, которые можно использовать для ответа на вопрос.".toList ::
    ("Вопрос: ".toList ++ query) ::
    [] ::
    ((snippets.enumFrom 1).map (fun p =>
      "### Фрагмент ".toList ++ (Nat.repr p.1).toList ++
        " (score=".toList ++ (Nat.repr p.2.score).toList ++
        ", file=".toList ++ p.2.file ++ "):".toList ++
        '\n' :: p.2.snippet ++ ['\n'])))

/-- The structured half of `answer_from_docs`: when the aggregate search
finds nothing, `answer` is `None` (not an empty string) and
`used_snippets` is empty; otherwise `answer` is the assembled context text
and `used_snippets` the snippets it used.  Either way the original query
is echoed back. -/
def answer_from_docs (fs : DocsFS) (query : List Char)
    (max_context_fragments : Nat) : AnswerFromDocsStructured :=
  let snippets := search_docs_internal fs query max_context_fragments
  if snippets.isEmpty then
    { answer := none, used_snippets := [], query := query }
  else
    { answer := some (render_answer query snippets)
      used_snippets := snippets
      query := query }

/-! ### Lemmas about the stable descending sort -/

theorem insert_desc_perm (x : Snippet) (l : List Snippet) :
    (insert_desc x l).Perm (x :: l) := by
  induction l with
  | nil => simp [insert_desc]
  | cons y ys ih =>
    by_cases h : x.score < y.score
    · simp only [insert_desc, if_pos h]
      exact (ih.cons y).trans (List.Perm.swap x y ys)
    · simp [insert_desc, if_neg h]

theorem sort_by_score_desc_perm (l : List Snippet) :
    (sort_by_score_desc l).Perm l := by
  induction l with
  | nil => simp [sort_by_score_desc]
  | cons x xs ih =>
    exact (insert_desc_perm x (sort_by_score_desc xs)).trans (ih.cons x)

theorem mem_sort_by_score_desc {s : Snippet} {l : List Snippet} :
    s ∈ sort_by_score_desc l ↔ s ∈ l :=
  (sort_by_score_desc_perm l).mem_iff

theorem insert_desc_pairwise (x : Snippet) (l : List Snippet)
    (hl : l.Pairwise (fun a b => b.score ≤ a.score)) :
    (insert_desc x l).Pairwise (fun a b => b.score ≤ a.score) := by
  induction l with
  | nil => simp [insert_desc]
  | cons y ys ih =>
    rcases List.pairwise_cons.mp hl with ⟨hy, hys⟩
    by_cases h : x.score < y.score
    · simp only [insert_desc, if_pos h]
      refine List.pairwise_cons.mpr ⟨?_, ih hys⟩
      intro z hz
      rcases List.mem_cons.mp ((insert_desc_perm x ys).mem_iff.mp hz) with hz | hz
      · subst hz; omega
      · exact hy z hz
    · simp only [insert_desc, if_neg h]
      refine List.pairwise_cons.mpr ⟨?_, hl⟩
      intro z hz
      rcases List.mem_cons.mp hz with hz | hz
      · subst hz; omega
      · exact le_trans (hy z hz) (by omega)

theorem sort_by_score_desc_sorted (l : List Snippet) :
    (sort_by_score_desc l).Pairwise (fun a b => b.score ≤ a.score) := by
  induction l with
  | nil => simp [sort_by_score_desc]
  | cons x xs ih => exact insert_desc_pairwise x (sort_by_score_desc xs) ih

theorem filter_insert_desc (x : Snippet) (l : List Snippet) (v : Nat) :
    (insert_desc x l).filter (fun s => s.score == v) =
      if x.score = v then x :: l.filter (fun s => s.score == v)
      else l.filter (fun s => s.score == v) := by
  induction l with
  | nil =>
    by_cases hx : x.score = v <;>
      simp [insert_desc, List.filter_cons, hx]
  | cons y ys ih =>
    by_cases h : x.score < y.score
    · simp only [insert_desc, if_pos h, List.filter_cons]
      rw [ih]
      by_cases hx : x.score = v
      · have hy : ¬(y.score = v) := by omega
        simp [hx, hy, List.filter_cons]
      · by_cases hyv : y.score = v <;> simp [hx, hyv, List.filter_cons]
    · simp only [insert_desc, if_neg h, List.filter_cons]
      by_cases hx : x.score = v <;> by_cases hyv : y.score = v <;>
        simp [hx, hyv, List.filter_cons]

/-- Stability of the sort: for every score value `v`, the equal-score
snippets appear in the sorted output exactly in their original order. -/
theorem sort_by_score_desc_filter_stable (l : List Snippet) (v : Nat) :
    (sort_by_score_desc l).filter (fun s => s.score == v) =
      l.filter (fun s => s.score == v) := by
  induction l with
  | nil => rfl
  | cons x xs ih =>
    simp only [sort_by_score_desc, filter_insert_desc, List.filter_cons]
    by_cases hx : x.score = v <;> simp [hx, ih]

/-! ### Characterizing the snippets a search can return -/

theorem mem_paragraph_snippets {s : Snippet} {file content query : List Char}
    (h : s ∈ paragraph_snippets file content query) :
    ∃ para ∈ split_paragraphs content,
      ¬(py_strip para).isEmpty = true ∧
      0 < simple_score (py_strip para) query ∧
      s = { file := file, score := simple_score (py_strip para) query,
            snippet := truncate_snippet (py_strip para) } := by
  unfold paragraph_snippets at h
  rcases List.mem_filterMap.mp h with ⟨para, hpara, hf⟩
  refine ⟨para, hpara, ?_⟩
  by_cases h1 : (py_strip para).isEmpty = true
  · simp [h1] at hf
  · by_cases h2 : simple_score (py_strip para) query ≤ 0
    · simp [h1, h2] at hf
    · simp only [h1, h2, if_neg, if_false, Option.some_inj] at hf
      simp at hf
      exact ⟨h1, by omega, hf.symm⟩

theorem mem_search_in_file {s : Snippet} {path : List Char}
    {read : Option (List Char)} {query : List Char} {k : Nat}
    (h : s ∈ search_in_file path read query k) :
    ∃ content, read = some content ∧
      ∃ para ∈ split_paragraphs content,
        s.file = path ∧
        s.score = simple_score (py_strip para) query ∧
        s.snippet = truncate_snippet (py_strip para) ∧
        0 < s.score := by
  unfold search_in_file at h
  match read with
  | none => simp at h
  | some content =>
    have h2 := mem_sort_by_score_desc.mp (List.mem_of_mem_take h)
    rcases mem_paragraph_snippets h2 with ⟨para, hpara, _, hpos, hs⟩
    subst hs
    exact ⟨content, rfl, para, hpara, rfl, rfl, rfl, hpos⟩

theorem mem_search_docs_internal {s : Snippet} {fs : DocsFS}
    {query : List Char} {m : Nat}
    (h : s ∈ search_docs_internal fs query m) :
    ∃ e ∈ iter_doc_files fs,
      s ∈ search_in_file (abs_path fs.root e) e.content query 3 := by
  unfold search_docs_internal at h
  have h2 := mem_sort_by_score_desc.mp (List.mem_of_mem_take h)
  unfold all_doc_snippets at h2
  exact List.mem_flatMap.mp h2

theorem truncate_snippet_length_le (s : List Char) :
    (truncate_snippet s).length ≤ 603 := by
  unfold truncate_snippet
  split
  · have hm : ("...".toList).length = 3 := rfl
    simp only [List.length_append, List.length_take, hm]
    omega
  · omega

/-- Counted occurrences are disjoint: each consumes `needle.length` distinct
characters of the remaining haystack (past the `skip` already owed). -/
theorem count_occs_aux_mul_le (needle : List Char) :
    ∀ (hay : List Char) (skip : Nat),
      count_occs_aux needle hay skip * needle.length ≤ hay.length - skip := by
  intro hay
  induction hay with
  | nil => intro skip; simp [count_occs_aux]
  | cons c rest ih =>
    intro skip
    match skip with
    | Nat.succ k =>
      have := ih k
      simp only [count_occs_aux, List.length_cons]
      omega
    | 0 =>
      simp only [count_occs_aux]
      split
      · next hpre =>
        have hlen : needle.length ≤ (c :: rest).length :=
          (List.isPrefixOf_iff_prefix.mp hpre).length_le
        have h1 := ih (needle.length - 1)
        simp only [List.length_cons] at hlen ⊢
        rw [Nat.add_mul, Nat.one_mul]
        omega
      · have := ih 0
        simp only [List.length_cons]
        omega

theorem count_occs_mul_le (hay needle : List Char)
    (h : ¬needle.isEmpty = true) :
    count_occs hay needle * needle.length ≤ hay.length := by
  unfold count_occs
  rw [if_neg h]
  simpa using count_occs_aux_mul_le needle hay 0

/-! ### The claims -/

/-- C1 is false as stated: the query is tokenized into a *list*, not a set,
so duplicate query tokens are counted once per repetition.  For the
document `"a"` (one paragraph, `"a"`, unchanged by stripping) and the query
`"a a"`, the returned snippet's score is `2`, while the sum over the
deduplicated token set `{"a"}` of occurrence counts in the paragraph is
`1`. -/
theorem C1_counterexample_dup_tokens :
    (search_in_file ("f".toList) (some ("a".toList)) ("a a".toList) 3).map
        Snippet.score = [2] ∧
    split_paragraphs ("a".toList) = ["a".toList] ∧
    py_strip ("a".toList) = "a".toList ∧
    simple_score_spec_dedup ("a".toList) ("a a".toList) = 1 ∧
    (2 : Nat) ≠ 1 := by
  decide

/-- C1 (amended): each snippet returned by the per-file search is the
truncation of a stripped source paragraph of the document, and its score
equals the sum, over the *list* of lowercase word tokens of the query
(each repeated token counted once per repetition, empty tokens discarded),
of the case-insensitive occurrence count of that token in that same source
paragraph's stripped text, before truncation. -/
theorem C1_score_sums_token_list {s : Snippet} {path : List Char}
    {read : Option (List Char)} {query : List Char} {k : Nat}
    (h : s ∈ search_in_file path read query k) :
    ∃ content, read = some content ∧
      ∃ para ∈ split_paragraphs content,
        s.snippet = truncate_snippet (py_strip para) ∧
        s.score =
          (((find_word_tokens (py_lower query)).filter
              (fun t => !t.isEmpty)).map
            (fun tok => count_occs (py_lower (py_strip para)) tok)).sum := by
  rcases mem_search_in_file h with ⟨content, hc, para, hpara, _, hscore, hsnip, _⟩
  exact ⟨content, hc, para, hpara, hsnip, hscore⟩

theorem C1_witness :
    (Snippet.mk ("f".toList) 2 ("a".toList)) ∈
        search_in_file ("f".toList) (some ("a".toList)) ("a a".toList) 3 ∧
    (∃ content, (some ("a".toList) : Option (List Char)) = some content ∧
      ∃ para ∈ split_paragraphs content,
        (Snippet.mk ("f".toList) 2 ("a".toList)).snippet =
          truncate_snippet (py_strip para) ∧
        (Snippet.mk ("f".toList) 2 ("a".toList)).score =
          (((find_word_tokens (py_lower ("a a".toList))).filter
              (fun t => !t.isEmpty)).map
            (fun tok => count_occs (py_lower (py_strip para)) tok)).sum) :=
  ⟨by decide,
    @C1_score_sums_token_list (Snippet.mk ("f".toList) 2 ("a".toList))
      ("f".toList) (some ("a".toList)) ("a a".toList) 3 (by decide)⟩

/-- C2: every returned snippet's text has length at most 600 plus the
3-character truncation marker, and its score was computed from the
pre-truncation (stripped) paragraph text, so truncation never changes the
score. -/
theorem C2_truncation_after_scoring {s : Snippet} {path : List Char}
    {read : Option (List Char)} {query : List Char} {k : Nat}
    (h : s ∈ search_in_file path read query k) :
    s.snippet.length ≤ 600 + 3 ∧
    ∃ content, read = some content ∧
      ∃ para ∈ split_paragraphs content,
        s.snippet = truncate_snippet (py_strip para) ∧
        s.score = simple_score (py_strip para) query := by
  rcases mem_search_in_file h with ⟨content, hc, para, hpara, _, hscore, hsnip, _⟩
  refine ⟨?_, content, hc, para, hpara, hsnip, hscore⟩
  rw [hsnip]
  exact truncate_snippet_length_le _

theorem C2_witness :
    (Snippet.mk ("f".toList) 2 ("a".toList)) ∈
        search_in_file ("f".toList) (some ("a".toList)) ("a a".toList) 3 ∧
    ((Snippet.mk ("f".toList) 2 ("a".toList)).snippet.length ≤ 600 + 3 ∧
      ∃ content, (some ("a".toList) : Option (List Char)) = some content ∧
        ∃ para ∈ split_paragraphs content,
          (Snippet.mk ("f".toList) 2 ("a".toList)).snippet =
            truncate_snippet (py_strip para) ∧
          (Snippet.mk ("f".toList) 2 ("a".toList)).score =
            simple_score (py_strip para) ("a a".toList)) :=
  ⟨by decide,
    @C2_truncation_after_scoring (Snippet.mk ("f".toList) 2 ("a".toList))
      ("f".toList) (some ("a".toList)) ("a a".toList) 3 (by decide)⟩

/-- C3: the per-file search (called with the fixed per-document cap 3)
returns at most 3 snippets, and for `1 ≤ max_results ≤ 20` the aggregate
search returns at most `max_results` snippets. -/
theorem C3_result_caps (path : List Char) (read : Option (List Char))
    (query : List Char) (fs : DocsFS) (q2 : List Char) (m : Nat)
    (_h1 : 1 ≤ m) (_h2 : m ≤ 20) :
    (search_in_file path read query 3).length ≤ 3 ∧
    (search_docs_internal fs q2 m).length ≤ m := by
  constructor
  · unfold search_in_file
    match read with
    | none => simp
    | some c =>
      simp only [List.length_take]
      omega
  · unfold search_docs_internal
    simp only [List.length_take]
    omega

theorem C3_witness :
    1 ≤ 5 ∧ 5 ≤ 20 ∧
    ((search_in_file ("f".toList) (some ("a".toList)) ("a a".toList) 3).length ≤ 3 ∧
      (search_docs_internal ⟨"/r".toList, false, []⟩ ("a".toList) 5).length ≤ 5) :=
  ⟨by decide, by decide,
    C3_result_caps ("f".toList) (some ("a".toList)) ("a a".toList)
      ⟨"/r".toList, false, []⟩ ("a".toList) 5 (by decide) (by decide)⟩

/-- C4: both searches return a sequence that is non-increasing in score
(`Pairwise`), and the sort is stable: for every score value `v`, the
equal-score snippets of the output form a sublist of — i.e. keep the
relative order of — the snippets as produced (paragraph order within a
document for the per-file search, and per-file results in scan order for
the aggregate search). -/
theorem C4_sorted_and_stable (path : List Char) (content query : List Char)
    (read : Option (List Char)) (k : Nat) (fs : DocsFS) (m v : Nat) :
    (search_in_file path read query k).Pairwise
        (fun a b => b.score ≤ a.score) ∧
    (search_docs_internal fs query m).Pairwise
        (fun a b => b.score ≤ a.score) ∧
    ((search_in_file path (some content) query k).filter
        (fun s => s.score == v)).Sublist
      ((paragraph_snippets path content query).filter
        (fun s => s.score == v)) ∧
    ((search_docs_internal fs query m).filter
        (fun s => s.score == v)).Sublist
      ((all_doc_snippets fs query).filter (fun s => s.score == v)) := by
  refine ⟨?_, ?_, ?_, ?_⟩
  · unfold search_in_file
    match read with
    | none => simp
    | some c =>
      exact List.Pairwise.sublist (List.take_sublist _ _)
        (sort_by_score_desc_sorted _)
  · unfold search_docs_internal
    exact List.Pairwise.sublist (List.take_sublist _ _)
      (sort_by_score_desc_sorted _)
  · have h := List.Sublist.filter (fun s => s.score == v)
      (List.take_sublist k
        (sort_by_score_desc (paragraph_snippets path content query)))
    rw [sort_by_score_desc_filter_stable] at h
    exact h
  · have h := List.Sublist.filter (fun s => s.score == v)
      (List.take_sublist m (sort_by_score_desc (all_doc_snippets fs query)))
    rw [sort_by_score_desc_filter_stable] at h
    exact h

/-- C5: no snippet with score `≤ 0` is ever returned, by the per-file
search or by the aggregate search. -/
theorem C5_no_zero_score (path : List Char) (read : Option (List Char))
    (query : List Char) (k : Nat) (s : Snippet) (fs : DocsFS) (m : Nat)
    (t : Snippet) :
    (s ∈ search_in_file path read query k → 0 < s.score) ∧
    (t ∈ search_docs_internal fs query m → 0 < t.score) := by
  constructor
  · intro h
    rcases mem_search_in_file h with ⟨_, _, _, _, _, _, _, hpos⟩
    exact hpos
  · intro h
    rcases mem_search_docs_internal h with ⟨e, _, h2⟩
    rcases mem_search_in_file h2 with ⟨_, _, _, _, _, _, _, hpos⟩
    exact hpos

theorem C5_witness :
    (Snippet.mk ("f".toList) 2 ("a".toList)) ∈
        search_in_file ("f".toList) (some ("a".toList)) ("a a".toList) 3 ∧
    0 < (Snippet.mk ("f".toList) 2 ("a".toList)).score :=
  ⟨by decide,
    (C5_no_zero_score ("f".toList) (some ("a".toList)) ("a a".toList) 3
        (Snippet.mk ("f".toList) 2 ("a".toList))
        ⟨"/r".toList, false, []⟩ 5
        (Snippet.mk ("f".toList) 2 ("a".toList))).1 (by decide)⟩

/-- C6: when the root does not exist or is not a directory, the scanner
returns no files and the aggregate search returns the empty list (both are
total functions: no exception is possible). -/
theorem C6_missing_root_empty (fs : DocsFS) (query : List Char) (m : Nat)
    (h : fs.root_is_dir = false) :
    iter_doc_files fs = [] ∧ search_docs_internal fs query m = [] := by
  have h1 : iter_doc_files fs = [] := by
    unfold iter_doc_files
    simp [h]
  refine ⟨h1, ?_⟩
  unfold search_docs_internal all_doc_snippets
  rw [h1]
  simp [sort_by_score_desc]

theorem C6_witness :
    (DocsFS.mk ("/r".toList) false
        [⟨"a.md".toList, true, some ("hello".toList)⟩]).root_is_dir = false ∧
    (iter_doc_files
        ⟨"/r".toList, false, [⟨"a.md".toList, true, some ("hello".toList)⟩]⟩ = [] ∧
      search_docs_internal
        ⟨"/r".toList, false, [⟨"a.md".toList, true, some ("hello".toList)⟩]⟩
        ("hello".toList) 5 = []) :=
  ⟨rfl,
    C6_missing_root_empty
      ⟨"/r".toList, false, [⟨"a.md".toList, true, some ("hello".toList)⟩]⟩
      ("hello".toList) 5 rfl⟩

/-- C7: a file whose read fails (`OSError`, modelled as `content = none`)
contributes zero snippets, and removing it from the scanned tree does not
change the aggregate search result at all — the other documents still
contribute their snippets.  Best-effort decoding means a successful read
never raises, so decode errors are never fatal. -/
theorem C7_read_failure_isolated (root : List Char) (b : Bool)
    (l1 l2 : List FileEntry) (bad : FileEntry) (query : List Char)
    (m : Nat) (path : List Char) (k : Nat)
    (h : bad.content = none) :
    search_in_file path bad.content query k = [] ∧
    search_docs_internal ⟨root, b, l1 ++ bad :: l2⟩ query m =
      search_docs_internal ⟨root, b, l1 ++ l2⟩ query m := by
  constructor
  · rw [h]
    rfl
  · have key : ∀ (p : FileEntry → Bool) (f : FileEntry → List Snippet),
        f bad = [] →
        ((l1 ++ bad :: l2).filter p).flatMap f =
          ((l1 ++ l2).filter p).flatMap f := by
      intro p f hf
      rw [List.filter_append, List.filter_append, List.flatMap_append,
        List.flatMap_append, List.filter_cons]
      by_cases hp : p bad = true
      · rw [if_pos hp, List.flatMap_cons, hf]
        simp
      · rw [if_neg hp]
    have hsnips : all_doc_snippets ⟨root, b, l1 ++ bad :: l2⟩ query =
        all_doc_snippets ⟨root, b, l1 ++ l2⟩ query := by
      cases b with
      | false => rfl
      | true =>
        exact key _ _ (by rw [h]; rfl)
    unfold search_docs_internal
    rw [hsnips]

theorem C7_witness :
    (FileEntry.mk ("bad.md".toList) true none).content = none ∧
    (search_in_file ("bad.md".toList)
        (FileEntry.mk ("bad.md".toList) true none).content
        ("hello".toList) 3 = [] ∧
      search_docs_internal
        ⟨"/r".toList, true,
          [⟨"a.md".toList, true, some ("hello".toList)⟩] ++
            (FileEntry.mk ("bad.md".toList) true none) ::
              [⟨"b.md".toList, true, some ("hello hello".toList)⟩]⟩
        ("hello".toList) 5 =
      search_docs_internal
        ⟨"/r".toList, true,
          [⟨"a.md".toList, true, some ("hello".toList)⟩] ++
            [⟨"b.md".toList, true, some ("hello hello".toList)⟩]⟩
        ("hello".toList) 5) :=
  ⟨rfl,
    C7_read_failure_isolated ("/r".toList) true
      [⟨"a.md".toList, true, some ("hello".toList)⟩]
      [⟨"b.md".toList, true, some ("hello hello".toList)⟩]
      (FileEntry.mk ("bad.md".toList) true none)
      ("hello".toList) 5 ("bad.md".toList) 3 rfl⟩

/-- C8: when the aggregate search finds nothing, the structured result of
`answer_from_docs` carries `answer = none` (absent/null, and in particular
not the empty string), an empty `used_snippets` list, and the original
query. -/
theorem C8_no_snippets_answer_none (fs : DocsFS) (query : List Char)
    (m : Nat) (h : search_docs_internal fs query m = []) :
    answer_from_docs fs query m =
      { answer := none, used_snippets := [], query := query } ∧
    (answer_from_docs fs query m).answer ≠ some [] := by
  unfold answer_from_docs
  rw [h]
  simp

theorem C8_witness :
    search_docs_internal
        ⟨"/r".toList, true, [⟨"a.md".toList, true, some ("hello".toList)⟩]⟩
        ("xyz123".toList) 5 = [] ∧
    (answer_from_docs
        ⟨"/r".toList, true, [⟨"a.md".toList, true, some ("hello".toList)⟩]⟩
        ("xyz123".toList) 5 =
      { answer := none, used_snippets := [], query := "xyz123".toList } ∧
      (answer_from_docs
          ⟨"/r".toList, true, [⟨"a.md".toList, true, some ("hello".toList)⟩]⟩
          ("xyz123".toList) 5).answer ≠ some []) :=
  ⟨by decide,
    C8_no_snippets_answer_none
      ⟨"/r".toList, true, [⟨"a.md".toList, true, some ("hello".toList)⟩]⟩
      ("xyz123".toList) 5 (by decide)⟩

/-- C9 is false as stated: only the human-readable listing is relative to
the root; the structured `files` list holds `str(p)`, the full path.  With
root `/r` and one file `a.md`, the structured list holds `/r/a.md`, not the
root-relative `a.md`. -/
theorem C9_counterexample_absolute_files :
    (list_docs_structured
        ⟨"/r".toList, true, [⟨"a.md".toList, true, some []⟩]⟩).files =
      ["/r/a.md".toList] ∧
    list_docs_rels ⟨"/r".toList, true, [⟨"a.md".toList, true, some []⟩]⟩ =
      ["a.md".toList] ∧
    ("/r/a.md".toList : List Char) ≠ "a.md".toList := by
  decide

/-- C9 (amended): every discovered document appears in the human-readable
listing as a `"- "`-prefixed path relative to the root, while the
structured `files` list holds its full path (the root joined with the
relative path); the human text is the joined listing lines. -/
theorem C9_list_docs_paths (fs : DocsFS) (e : FileEntry)
    (h : e ∈ iter_doc_files fs) :
    ("- ".toList ++ e.rel_path) ∈ list_docs_lines fs ∧
    (fs.root ++ '/' :: e.rel_path) ∈ (list_docs_structured fs).files ∧
    list_docs_text fs = join_lines (list_docs_lines fs) := by
  refine ⟨?_, ?_, ?_⟩
  · unfold list_docs_lines list_docs_rels
    exact List.mem_cons_of_mem _
      (List.mem_map_of_mem _ (List.mem_map_of_mem _ h))
  · unfold list_docs_structured
    exact List.mem_map_of_mem _ h
  · unfold list_docs_text
    rw [if_neg]
    simp only [List.isEmpty_iff]
    exact List.ne_nil_of_mem h

theorem C9_witness :
    (FileEntry.mk ("a.md".toList) true (some [])) ∈
        iter_doc_files ⟨"/r".toList, true, [⟨"a.md".toList, true, some []⟩]⟩ ∧
    (("- a.md".toList) ∈
        list_docs_lines ⟨"/r".toList, true, [⟨"a.md".toList, true, some []⟩]⟩ ∧
      ("/r/a.md".toList) ∈
        (list_docs_structured
          ⟨"/r".toList, true, [⟨"a.md".toList, true, some []⟩]⟩).files ∧
      list_docs_text ⟨"/r".toList, true, [⟨"a.md".toList, true, some []⟩]⟩ =
        join_lines
          (list_docs_lines
            ⟨"/r".toList, true, [⟨"a.md".toList, true, some []⟩]⟩)) :=
  ⟨by decide,
    C9_list_docs_paths ⟨"/r".toList, true, [⟨"a.md".toList, true, some []⟩]⟩
      (FileEntry.mk ("a.md".toList) true (some [])) (by decide)⟩

/-- C10: per-token occurrence counting is non-overlapping (Python
`str.count`): the counted occurrences consume disjoint stretches of the
haystack, so `count * |token| ≤ |text|` — which the overlapping count of
`"aa"` in `"aaaa"` (3, with `3 * 2 > 4`) would violate — and concretely
the token `"aa"` scores `2`, not `3`, against `"aaaa"`. -/
theorem C10_count_nonoverlapping (hay needle : List Char)
    (h : ¬needle.isEmpty = true) :
    count_occs hay needle * needle.length ≤ hay.length ∧
    count_occs ("aaaa".toList) ("aa".toList) = 2 ∧
    simple_score ("aaaa".toList) ("aa".toList) = 2 :=
  ⟨count_occs_mul_le hay needle h, by decide, by decide⟩

theorem C10_witness :
    ¬("aa".toList : List Char).isEmpty = true ∧
    (count_occs ("aaaa".toList) ("aa".toList) * ("aa".toList).length ≤
        ("aaaa".toList).length ∧
      count_occs ("aaaa".toList) ("aa".toList) = 2 ∧
      simple_score ("aaaa".toList) ("aa".toList) = 2) :=
  ⟨by decide, C10_count_nonoverlapping ("aaaa".toList) ("aa".toList) (by decide)⟩

end DocsRag
